import Mathlib

/-!
Shallow embedding of `src/packages/react-reconciler/src/ReactFiberReconciler.js`
(the root update coordinator of a React fiber reconciler) and proofs of the
specification claims about it.

JavaScript `null`/`undefined` values are modelled with `Option`; a thrown
`invariant(false, ...)` is modelled with `Except.error`; machine-visible side
effects (warnings, calls into the external scheduler) are modelled as an
explicit event trace returned alongside the result.
-/

namespace ReactFiberReconciler

/-- Work-node kinds (`shared/ReactWorkTags`).  The source file imports
`HostComponent` and `ClassComponent`; the host-resolution walks also
distinguish text nodes and portal boundaries, and roots exist as a kind. -/
inductive WorkTag where
  | HostComponent
  | HostText
  | ClassComponent
  | HostRoot
  | HostPortal
  | OtherComponent
deriving DecidableEq, Repr

/-- A work node ("fiber"): kind tag, backing instance (`stateNode`, modelled
as an opaque numeric id), `mode` bitmask, component `type` (modelled by its
name), and the list of children in tree order (the source's `child`/`sibling`
linked list). -/
inductive Fiber where
  | node (tag : WorkTag) (stateNode : Nat) (mode : Nat) (tyName : String)
      (children : List Fiber)

def Fiber.tag : Fiber → WorkTag
  | .node t _ _ _ _ => t

def Fiber.stateNode : Fiber → Nat
  | .node _ s _ _ _ => s

def Fiber.mode : Fiber → Nat
  | .node _ _ m _ _ => m

def Fiber.tyName : Fiber → String
  | .node _ _ _ ty _ => ty

def Fiber.children : Fiber → List Fiber
  | .node _ _ _ _ cs => cs

/-- `StrictMode` bit of the `mode` bitmask (`ReactTypeOfMode`). -/
def StrictMode : Nat := 2

/-- A node is host-kind when its backing value is a concrete renderable unit
(host component or host text). -/
def isHostKind (t : WorkTag) : Bool :=
  t = WorkTag.HostComponent || t = WorkTag.HostText

mutual

/-- Modelled from the spec: `findCurrentHostFiber` from
`react-reconciler/reflection` (not under `src/`).  "Walk descendants of the
resolved node in tree order until the first node whose tag identifies it as a
host-kind node", returning that node, or none when no host descendant is
reachable. -/
def findCurrentHostFiber : Fiber → Option Fiber
  | .node t sn m ty cs =>
    if isHostKind t then some (.node t sn m ty cs)
    else findCurrentHostFiberList cs

/-- Depth-first search over a child list for `findCurrentHostFiber`. -/
def findCurrentHostFiberList : List Fiber → Option Fiber
  | [] => none
  | f :: fs =>
    match findCurrentHostFiber f with
    | some h => some h
    | none => findCurrentHostFiberList fs

end

mutual

/-- Modelled from the spec: `findCurrentHostFiberWithNoPortals` from
`react-reconciler/reflection` (not under `src/`).  Same walk as
`findCurrentHostFiber` but it "suppresses portal boundaries during the
search": it never descends into a portal node's subtree. -/
def findCurrentHostFiberWithNoPortals : Fiber → Option Fiber
  | .node t sn m ty cs =>
    if isHostKind t then some (.node t sn m ty cs)
    else if t = WorkTag.HostPortal then none
    else findCurrentHostFiberNoPortalsList cs

/-- Depth-first search over a child list for
`findCurrentHostFiberWithNoPortals`. -/
def findCurrentHostFiberNoPortalsList : List Fiber → Option Fiber
  | [] => none
  | f :: fs =>
    match findCurrentHostFiberWithNoPortals f with
    | some h => some h
    | none => findCurrentHostFiberNoPortalsList fs

end

mutual

/-- Whether a host-kind node is reachable from this node (the node itself
included), used to characterise when the host walks return `none`. -/
def containsHost : Fiber → Bool
  | .node t _ _ _ cs => isHostKind t || containsHostList cs

def containsHostList : List Fiber → Bool
  | [] => false
  | f :: fs => containsHost f || containsHostList fs

end

mutual

/-- Whether a host-kind node is reachable without crossing a portal
boundary. -/
def containsHostNoPortals : Fiber → Bool
  | .node t _ _ _ cs =>
    isHostKind t || (!(t = WorkTag.HostPortal) && containsHostNoPortalsList cs)

def containsHostNoPortalsList : List Fiber → Bool
  | [] => false
  | f :: fs => containsHostNoPortals f || containsHostNoPortalsList fs

end

/-- A context object, tracked with identity so that reference equality
("identity-stable") is expressible: the canonical empty object is a
distinguished value; every other context object carries an allocation id. -/
inductive CtxObj where
  | emptyObj
  | obj (id : Nat)
deriving DecidableEq, Repr

/-- `emptyContextObject` from `ReactFiberContext`: the canonical module-level
empty context object. -/
def emptyContextObject : CtxObj := CtxObj.emptyObj

/-- External legacy-context helpers from `ReactFiberContext` (not under
`src/`).  The claims about this file hold for every such environment, so they
are abstracted as functions rather than modelled. -/
structure ContextEnv where
  findCurrentUnmaskedContext : Fiber → CtxObj
  isLegacyContextProvider : String → Bool
  processChildContext : Fiber → String → CtxObj → CtxObj

/-- A mounted parent component instance together with its work-node
association from `shared/ReactInstanceMap` (`getContextForSubtree` reads the
association without checking for a missing one, so a mounted parent is
assumed here). -/
structure ParentComponent where
  fiber : Fiber

/-- `getContextForSubtree` (source lines 97–117): an absent parent yields the
canonical empty context object; otherwise compute the unmasked context at the
parent's work node and, when that node is a class component whose type is a
legacy context provider, merge its declared child context on top. -/
def getContextForSubtree (env : ContextEnv) :
    Option ParentComponent → CtxObj
  | none => emptyContextObject
  | some parentComponent =>
    let fiber := parentComponent.fiber
    let parentContext := env.findCurrentUnmaskedContext fiber
    if fiber.tag = WorkTag.ClassComponent then
      let Component := fiber.tyName
      if env.isLegacyContextProvider Component then
        env.processChildContext fiber Component parentContext
      else parentContext
    else parentContext

/-- An element id; the tree description argument is `Option Element`, with
`none` standing for the JavaScript `null` unmount request. -/
abbrev Element := Nat

/-- The value passed as the optional `callback` argument: JavaScript
`undefined`, `null`, a function, or any other (non-callable) value. -/
inductive CallbackArg where
  | undefinedArg
  | nullArg
  | func (id : Nat)
  | nonFunc (id : Nat)
deriving DecidableEq, Repr

def CallbackArg.isFunction : CallbackArg → Bool
  | .func _ => true
  | _ => false

/-- A non-`null` value stored in an update record's `callback` field. -/
inductive CallbackVal where
  | func (id : Nat)
  | nonFunc (id : Nat)
deriving DecidableEq, Repr

/-- The payload object literal built by `scheduleRootUpdate`, holding the new
tree description under the property named exactly `element`. -/
structure PayloadObj where
  element : Option Element
deriving DecidableEq, Repr

/-- An update record.  `createUpdate` from `ReactUpdateQueue` allocates it
with no payload and no callback; the coordinator fills the fields in. -/
structure Update where
  expirationTime : Nat
  payload : Option PayloadObj
  callback : Option CallbackVal
deriving DecidableEq, Repr

/-- Modelled from the spec: `createUpdate` from `ReactUpdateQueue` (not under
`src/`) "allocates a record with no payload/callback" at the given
priority. -/
def createUpdate (expirationTime : Nat) : Update :=
  { expirationTime := expirationTime, payload := none, callback := none }

/-- Modelled from the spec: `enqueueUpdate` from `ReactUpdateQueue` (not
under `src/`) "appends the record to the queue owned by the node's pair";
queue order is insertion order. -/
def enqueueUpdate (queue : List Update) (update : Update) : List Update :=
  queue ++ [update]

/-- Observable steps of one `scheduleRootUpdate` run, in the order they are
executed: development warnings and the calls into the update queue and the
external scheduler. -/
inductive Event where
  | warnNestedUpdate
  | evCreateUpdate (expirationTime : Nat)
  | warnNonFunctionCallback
  | evFlushPassiveEffects
  | evEnqueueUpdate
  | evScheduleWork (expirationTime : Nat)
deriving DecidableEq, Repr

/-- Development-build globals read by `scheduleRootUpdate`: whether this is a
development build, the phase and current fiber from `ReactCurrentFiber`, and
the module-level `didWarnAboutNestedUpdates` flag. -/
structure DevGlobals where
  dev : Bool
  phaseIsRender : Bool
  currentFiberPresent : Bool
  didWarnAboutNestedUpdates : Bool
deriving DecidableEq, Repr

/-- Everything one `scheduleRootUpdate` run produces: the event trace, the
update record it built, the node's update queue afterwards, the new
`didWarnAboutNestedUpdates` flag, and the returned expiration time. -/
structure RootUpdateResult where
  events : List Event
  update : Update
  queue : List Update
  didWarnAboutNestedUpdates : Bool
  returned : Nat
deriving DecidableEq, Repr

/-- `scheduleRootUpdate` (source lines 123–177): optionally warn about a
nested render-phase update, create the update record at the given expiration
time, attach the payload, normalise and attach the callback (warning when a
non-`null` callback is not callable), flush passive effects, enqueue the
update on the node's queue, and request scheduling. -/
def scheduleRootUpdate (g : DevGlobals) (queue : List Update)
    (element : Option Element) (expirationTime : Nat)
    (callback : CallbackArg) : RootUpdateResult :=
  let warnNested :=
    g.dev && g.phaseIsRender && g.currentFiberPresent &&
      !g.didWarnAboutNestedUpdates
  let nestedEvents := if warnNested then [Event.warnNestedUpdate] else []
  let didWarn := g.didWarnAboutNestedUpdates || warnNested
  let update := createUpdate expirationTime
  -- Caution: React DevTools currently depends on this property
  -- being called "element".
  let update := { update with payload := some { element := element } }
  let callback :=
    if callback = CallbackArg.undefinedArg then CallbackArg.nullArg
    else callback
  let (cbEvents, update) :=
    if callback = CallbackArg.nullArg then (([] : List Event), update)
    else
      let warnEvents :=
        if g.dev && !callback.isFunction then [Event.warnNonFunctionCallback]
        else []
      (warnEvents,
        { update with
            callback :=
              match callback with
              | .func i => some (CallbackVal.func i)
              | .nonFunc i => some (CallbackVal.nonFunc i)
              | _ => none })
  let queue := enqueueUpdate queue update
  { events :=
      nestedEvents ++ [Event.evCreateUpdate expirationTime] ++ cbEvents ++
        [Event.evFlushPassiveEffects, Event.evEnqueueUpdate,
          Event.evScheduleWork expirationTime],
    update := update, queue := queue,
    didWarnAboutNestedUpdates := didWarn, returned := expirationTime }

/-- A fiber root: the committed tree (`current`), the committed context, the
staged pending context, and the pending-update queue shared by `current` and
its paired alternate (the queue lives on the work node in the source; it is
kept on the root here, since the root owns that node). -/
structure FiberRoot where
  current : Fiber
  context : Option CtxObj
  pendingContext : Option CtxObj
  queue : List Update

/-- `updateContainerAtExpirationTime` (source lines 179–213): resolve the
subtree context, stage it on the root (into `context` directly when that
field is still `null`, into `pendingContext` otherwise), then delegate to
`scheduleRootUpdate` on the root's current node.  The development-only
devtools instrumentation on lines 189–199 has no effect on the result and is
not modelled. -/
def updateContainerAtExpirationTime (env : ContextEnv) (g : DevGlobals)
    (element : Option Element) (container : FiberRoot)
    (parentComponent : Option ParentComponent) (expirationTime : Nat)
    (callback : CallbackArg) : FiberRoot × RootUpdateResult :=
  let context := getContextForSubtree env parentComponent
  let container :=
    if container.context = none then { container with context := some context }
    else { container with pendingContext := some context }
  let r := scheduleRootUpdate g container.queue element expirationTime callback
  ({ container with queue := r.queue }, r)

/-- External scheduler interface (`ReactFiberScheduler`, not under `src/`):
only the pieces `updateContainer` reads, abstracted as values. -/
structure SchedulerEnv where
  requestCurrentTime : Nat
  computeExpirationForFiber : Nat → Fiber → Nat

/-- `updateContainer` (source lines 304–331): derive the expiration time from
the current time and the root's current node, then delegate to
`updateContainerAtExpirationTime`. -/
def updateContainer (env : ContextEnv) (sched : SchedulerEnv) (g : DevGlobals)
    (element : Option Element) (container : FiberRoot)
    (parentComponent : Option ParentComponent) (callback : CallbackArg) :
    FiberRoot × RootUpdateResult :=
  let current := container.current
  let currentTime := sched.requestCurrentTime
  let expirationTime := sched.computeExpirationForFiber currentTime current
  updateContainerAtExpirationTime env g element container parentComponent
    expirationTime callback

/-- A public handle passed to host resolution: its work-node association from
`shared/ReactInstanceMap` (`none` models `undefined`, i.e. no association),
whether the object exposes a callable `render` property, and its
`Object.keys` list. -/
structure Handle where
  fiber : Option Fiber
  hasRenderFn : Bool
  keys : List String

/-- `get` from `shared/ReactInstanceMap`: look up a handle's internal
work-node association. -/
def getInstance (component : Handle) : Option Fiber := component.fiber

/-- The fatal invariant violations host resolution can signal:
"Unable to find node on an unmounted component." and
"Argument appears to not be a ReactComponent. Keys: ..." respectively. -/
inductive InvariantViolation where
  | unmountedComponent
  | notAComponent (keys : List String)
deriving DecidableEq, Repr

/-- `findHostInstance` (source lines 215–233): fail when the handle has no
work-node association (distinguishing the two diagnostic messages on whether
the handle exposes a `render` function); otherwise walk for the first host
descendant and return its backing instance, or `null` when none is
reachable. -/
def findHostInstance (component : Handle) :
    Except InvariantViolation (Option Nat) :=
  match getInstance component with
  | none =>
    if component.hasRenderFn then
      Except.error InvariantViolation.unmountedComponent
    else
      Except.error (InvariantViolation.notAComponent component.keys)
  | some fiber =>
    match findCurrentHostFiber fiber with
    | none => Except.ok none
    | some hostFiber => Except.ok (some hostFiber.stateNode)

/-- `findHostInstanceWithWarning` (source lines 235–294).  `dev` is the
build flag; `gcn` abstracts the external `getComponentName`; `warned` is the
module-level `didWarnAboutFindNodeInStrictMode` set; `methodName` only feeds
the warning text.  Returns the result, the updated warning set, and the
emitted warning if any, recorded as the method name and warned component
name of the message, paired with whether the handle's own fiber is in strict
mode (the source emits one of two message texts on that distinction). -/
def findHostInstanceWithWarning (dev : Bool) (gcn : String → Option String)
    (warned : List String) (component : Handle) (methodName : String) :
    Except InvariantViolation (Option Nat) × List String ×
      Option (String × String × Bool) :=
  if dev then
    match getInstance component with
    | none =>
      if component.hasRenderFn then
        (Except.error InvariantViolation.unmountedComponent, warned, none)
      else
        (Except.error (InvariantViolation.notAComponent component.keys),
          warned, none)
    | some fiber =>
      match findCurrentHostFiber fiber with
      | none => (Except.ok none, warned, none)
      | some hostFiber =>
        if hostFiber.mode &&& StrictMode != 0 then
          let componentName := (gcn fiber.tyName).getD "Component"
          if componentName ∈ warned then
            (Except.ok (some hostFiber.stateNode), warned, none)
          else
            (Except.ok (some hostFiber.stateNode), componentName :: warned,
              some (methodName, componentName, fiber.mode &&& StrictMode != 0))
        else
          (Except.ok (some hostFiber.stateNode), warned, none)
  else
    (findHostInstance component, warned, none)

/-- `getPublicRootInstance` (source lines 347–360).  `getPublicInstance` is
the external host-config translation from internal host instance to public
instance, abstracted as a function. -/
def getPublicRootInstance (getPublicInstance : Nat → Nat)
    (container : FiberRoot) : Option Nat :=
  let containerFiber := container.current
  match containerFiber.children.head? with
  | none => none
  | some child =>
    if child.tag = WorkTag.HostComponent then
      some (getPublicInstance child.stateNode)
    else
      some child.stateNode

/-- `findHostInstanceWithNoPortals` (source lines 366–374): takes a work node
directly and walks for the first host descendant without crossing portal
boundaries. -/
def findHostInstanceWithNoPortals (fiber : Fiber) : Option Nat :=
  match findCurrentHostFiberWithNoPortals fiber with
  | none => none
  | some hostFiber => some hostFiber.stateNode

/-- The devtools configuration (source lines 72–83): only the optional
reverse-lookup function affects the registered internals; the remaining
fields are opaque to this core. -/
structure DevToolsConfig where
  findFiberByHostInstance : Option (Nat → Option Fiber)

/-- The two lookup functions `injectIntoDevTools` registers. -/
structure DevToolsInternals where
  findHostInstanceByFiber : Fiber → Option Nat
  findFiberByHostInstance : Nat → Option Fiber

/-- The internals record `injectIntoDevTools` builds (source lines 378–394):
the forward lookup walks for the first host descendant, the reverse lookup
delegates to the caller-supplied function when one is provided.  Reverse
lookup might not be implemented by the renderer, in which case it returns
`null`. -/
def devToolsInternals (config : DevToolsConfig) : DevToolsInternals :=
  { findHostInstanceByFiber := fun fiber =>
      match findCurrentHostFiber fiber with
      | none => none
      | some hostFiber => some hostFiber.stateNode,
    findFiberByHostInstance := fun instanceId =>
      match config.findFiberByHostInstance with
      | none => none
      | some f => f instanceId }

/-- `injectIntoDevTools` (source lines 376–395).  `injectInternals` is the
external registration hook from `ReactFiberDevToolsHook` (not under `src/`),
abstracted as a function returning whether registration succeeded. -/
def injectIntoDevTools (injectInternals : DevToolsInternals → Bool)
    (config : DevToolsConfig) : Bool :=
  injectInternals (devToolsInternals config)

/-- Whether an event occurs in a trace. -/
def containsEv (a : Event) : List Event → Bool
  | [] => false
  | x :: xs => if x = a then true else containsEv a xs

/-- `a` strictly precedes `b` in a trace: an occurrence of `a` appears, with
an occurrence of `b` after it, and no occurrence of `b` before that `a`. -/
def precedesIn (a b : Event) : List Event → Bool
  | [] => false
  | x :: xs =>
    if x = a then containsEv b xs
    else if x = b then false
    else precedesIn a b xs

/-- Run a sequence of `findHostInstanceWithWarning` calls (each a handle and
a method name), threading the module-level warning set through and
collecting every emitted warning in order. -/
def runFindHostCalls (dev : Bool) (gcn : String → Option String) :
    List (Handle × String) → List String →
      List (String × String × Bool) × List String
  | [], warned => ([], warned)
  | (component, methodName) :: rest, warned =>
    let r := findHostInstanceWithWarning dev gcn warned component methodName
    let rest' := runFindHostCalls dev gcn rest r.2.1
    (r.2.2.toList ++ rest'.1, rest'.2)

/-! ## Helper lemmas -/

mutual

theorem findCurrentHostFiber_isSome :
    ∀ f : Fiber, (findCurrentHostFiber f).isSome = containsHost f
  | .node t sn m ty cs => by
    rw [findCurrentHostFiber, containsHost]
    cases hk : isHostKind t with
    | true => simp
    | false => simp [findCurrentHostFiberList_isSome cs]

theorem findCurrentHostFiberList_isSome :
    ∀ l : List Fiber, (findCurrentHostFiberList l).isSome = containsHostList l
  | [] => by rw [findCurrentHostFiberList, containsHostList]; rfl
  | f :: fs => by
    rw [findCurrentHostFiberList, containsHostList]
    cases h : findCurrentHostFiber f with
    | some hF =>
      have := findCurrentHostFiber_isSome f
      rw [h] at this
      simp [← this]
    | none =>
      have := findCurrentHostFiber_isSome f
      rw [h] at this
      simp [← this, findCurrentHostFiberList_isSome fs]

end

mutual

theorem findCurrentHostFiber_hostKind :
    ∀ f : Fiber,
      (findCurrentHostFiber f).all (fun h => isHostKind h.tag) = true
  | .node t sn m ty cs => by
    rw [findCurrentHostFiber]
    cases hk : isHostKind t with
    | true => simp [Option.all_some, Fiber.tag, hk]
    | false => simpa using findCurrentHostFiberList_hostKind cs

theorem findCurrentHostFiberList_hostKind :
    ∀ l : List Fiber,
      (findCurrentHostFiberList l).all (fun h => isHostKind h.tag) = true
  | [] => by rw [findCurrentHostFiberList]; rfl
  | f :: fs => by
    rw [findCurrentHostFiberList]
    cases h : findCurrentHostFiber f with
    | some hF =>
      have := findCurrentHostFiber_hostKind f
      rw [h] at this
      simpa using this
    | none => simpa using findCurrentHostFiberList_hostKind fs

end

mutual

theorem findCurrentHostFiberWithNoPortals_isSome :
    ∀ f : Fiber,
      (findCurrentHostFiberWithNoPortals f).isSome = containsHostNoPortals f
  | .node t sn m ty cs => by
    rw [findCurrentHostFiberWithNoPortals, containsHostNoPortals]
    cases hk : isHostKind t with
    | true => simp
    | false =>
      by_cases hp : t = WorkTag.HostPortal
      · simp [hp]
      · simp [hp, findCurrentHostFiberNoPortalsList_isSome cs]

theorem findCurrentHostFiberNoPortalsList_isSome :
    ∀ l : List Fiber,
      (findCurrentHostFiberNoPortalsList l).isSome = containsHostNoPortalsList l
  | [] => by rw [findCurrentHostFiberNoPortalsList, containsHostNoPortalsList]; rfl
  | f :: fs => by
    rw [findCurrentHostFiberNoPortalsList, containsHostNoPortalsList]
    cases h : findCurrentHostFiberWithNoPortals f with
    | some hF =>
      have := findCurrentHostFiberWithNoPortals_isSome f
      rw [h] at this
      simp [← this]
    | none =>
      have := findCurrentHostFiberWithNoPortals_isSome f
      rw [h] at this
      simp [← this, findCurrentHostFiberNoPortalsList_isSome fs]

end

mutual

theorem findCurrentHostFiberWithNoPortals_hostKind :
    ∀ f : Fiber,
      (findCurrentHostFiberWithNoPortals f).all (fun h => isHostKind h.tag) = true
  | .node t sn m ty cs => by
    rw [findCurrentHostFiberWithNoPortals]
    cases hk : isHostKind t with
    | true => simp [Option.all_some, Fiber.tag, hk]
    | false =>
      by_cases hp : t = WorkTag.HostPortal
      · simp [hp]
      · simpa [hp] using findCurrentHostFiberNoPortalsList_hostKind cs

theorem findCurrentHostFiberNoPortalsList_hostKind :
    ∀ l : List Fiber,
      (findCurrentHostFiberNoPortalsList l).all (fun h => isHostKind h.tag) = true
  | [] => by rw [findCurrentHostFiberNoPortalsList]; rfl
  | f :: fs => by
    rw [findCurrentHostFiberNoPortalsList]
    cases h : findCurrentHostFiberWithNoPortals f with
    | some hF =>
      have := findCurrentHostFiberWithNoPortals_hostKind f
      rw [h] at this
      simpa using this
    | none => simpa using findCurrentHostFiberNoPortalsList_hostKind fs

end

/-! ## Claim theorems -/

/-- Claim C1: every call to the update entry point stores the resolved
context directly into the root's `context` field when that field is unset,
and into `pendingContext`, leaving `context` unchanged, when it is already
set; `updateContainer` takes the same path at its computed expiration
time. -/
theorem claim_C1_context_staging (env : ContextEnv) (sched : SchedulerEnv)
    (g : DevGlobals) (element : Option Element) (container : FiberRoot)
    (parentComponent : Option ParentComponent) (expirationTime : Nat)
    (callback : CallbackArg) :
    ((updateContainerAtExpirationTime env g element container parentComponent
        expirationTime callback).fst.context =
      (if container.context = none
        then some (getContextForSubtree env parentComponent)
        else container.context)) ∧
    ((updateContainerAtExpirationTime env g element container parentComponent
        expirationTime callback).fst.pendingContext =
      (if container.context = none
        then container.pendingContext
        else some (getContextForSubtree env parentComponent))) ∧
    updateContainer env sched g element container parentComponent callback =
      updateContainerAtExpirationTime env g element container parentComponent
        (sched.computeExpirationForFiber sched.requestCurrentTime
          container.current) callback := by
  refine ⟨?_, ?_, rfl⟩ <;>
    · rw [updateContainerAtExpirationTime]
      by_cases h : container.context = none <;> simp [h]

/-- Claim C8: context resolution with an absent parent handle returns the
canonical empty context object, and any two such calls agree (the result is
a single identity-stable value, independent of the context environment). -/
theorem claim_C8_empty_context (env env' : ContextEnv) :
    getContextForSubtree env none = emptyContextObject ∧
    getContextForSubtree env none = getContextForSubtree env' none :=
  ⟨rfl, rfl⟩

/-- Claim C7: `getPublicRootInstance` returns `null` when the root's current
node has no child, `getPublicInstance` of the child's backing instance when
the first child is a host component, and the child's own `stateNode` for any
other child kind. -/
theorem claim_C7_getPublicRootInstance (getPublicInstance : Nat → Nat)
    (container : FiberRoot) :
    getPublicRootInstance getPublicInstance container =
      (match container.current.children.head? with
       | none => none
       | some child =>
         some (if child.tag = WorkTag.HostComponent
           then getPublicInstance child.stateNode
           else child.stateNode)) := by
  rw [getPublicRootInstance]
  cases h : container.current.children.head? with
  | none => rfl
  | some child => by_cases ht : child.tag = WorkTag.HostComponent <;> simp [ht]

/-- Claim C4: `findHostInstance` faults exactly when the handle has no
work-node association, distinguishing the unmounted-component message (the
handle exposes a `render` function) from the not-a-component message listing
the handle's keys; on a resolved handle it returns the first host
descendant's backing instance, or `null` exactly when no host-kind
descendant is reachable (and any node the walk returns is host-kind). -/
theorem claim_C4_findHostInstance (component : Handle) (f : Fiber) :
    (findHostInstance component =
      (match component.fiber with
       | none =>
         Except.error
           (if component.hasRenderFn then
             InvariantViolation.unmountedComponent
            else InvariantViolation.notAComponent component.keys)
       | some fiber =>
         Except.ok (Option.map Fiber.stateNode (findCurrentHostFiber fiber)))) ∧
    (findCurrentHostFiber f).isSome = containsHost f ∧
    (findCurrentHostFiber f).all (fun h => isHostKind h.tag) = true := by
  refine ⟨?_, findCurrentHostFiber_isSome f, findCurrentHostFiber_hostKind f⟩
  rw [findHostInstance, getInstance]
  cases hf : component.fiber with
  | none => by_cases hr : component.hasRenderFn <;> simp [hr]
  | some fiber => cases h : findCurrentHostFiber fiber <;> simp [h]

/-- Claim C10: `findHostInstanceWithNoPortals` takes a work node directly,
performs no handle resolution and is total: it returns the backing instance
of the first host descendant reachable without crossing a portal boundary,
and `null` exactly when there is none (any node the portal-suppressing walk
returns is host-kind). -/
theorem claim_C10_findHostInstanceWithNoPortals (fiber : Fiber) :
    findHostInstanceWithNoPortals fiber =
      Option.map Fiber.stateNode (findCurrentHostFiberWithNoPortals fiber) ∧
    (findHostInstanceWithNoPortals fiber).isSome =
      containsHostNoPortals fiber ∧
    (findCurrentHostFiberWithNoPortals fiber).all
      (fun h => isHostKind h.tag) = true := by
  refine ⟨?_, ?_, findCurrentHostFiberWithNoPortals_hostKind fiber⟩ <;>
    rw [findHostInstanceWithNoPortals]
  · cases h : findCurrentHostFiberWithNoPortals fiber <;> simp [h]
  · rw [← findCurrentHostFiberWithNoPortals_isSome fiber]
    cases h : findCurrentHostFiberWithNoPortals fiber <;> simp [h]

/-- Claim C9: the internals `injectIntoDevTools` registers delegate reverse
lookup to the caller-supplied `findFiberByHostInstance` when provided and
totally return `null` when it is absent; the forward lookup returns `null`
exactly when no host descendant exists and the host fiber's backing instance
otherwise; and the operation returns exactly what the external registration
hook reports. -/
theorem claim_C9_injectIntoDevTools (injectInternals : DevToolsInternals → Bool)
    (config : DevToolsConfig) (instanceId : Nat) (fiber : Fiber) :
    ((devToolsInternals config).findFiberByHostInstance instanceId =
      (match config.findFiberByHostInstance with
       | none => none
       | some f => f instanceId)) ∧
    ((devToolsInternals config).findHostInstanceByFiber fiber =
      Option.map Fiber.stateNode (findCurrentHostFiber fiber)) ∧
    ((devToolsInternals config).findHostInstanceByFiber fiber).isSome =
      containsHost fiber ∧
    injectIntoDevTools injectInternals config =
      injectInternals (devToolsInternals config) := by
  refine ⟨rfl, ?_, ?_, rfl⟩ <;> rw [devToolsInternals]
  · cases h : findCurrentHostFiber fiber <;> simp [h]
  · rw [← findCurrentHostFiber_isSome fiber]
    cases h : findCurrentHostFiber fiber <;> simp [h]

/-- Claim C6: for every tree description, `null` (an unmount request)
included, the update record `scheduleRootUpdate` creates carries as payload
the object holding that description under the property `element`. -/
theorem claim_C6_payload_element (g : DevGlobals) (queue : List Update)
    (element : Option Element) (expirationTime : Nat)
    (callback : CallbackArg) :
    (scheduleRootUpdate g queue element expirationTime callback).update.payload =
      some { element := element } := by
  rw [scheduleRootUpdate]
  cases callback <;> simp [createUpdate]

/-- Claim C2 counterexample: in a concrete run of `scheduleRootUpdate` the
passive-effect flush does not precede the creation of the update record —
the trace creates the update first and flushes afterwards. -/
theorem claim_C2_counterexample :
    precedesIn Event.evFlushPassiveEffects (Event.evCreateUpdate 5)
        (scheduleRootUpdate ⟨false, false, false, false⟩ [] none 5
          CallbackArg.nullArg).events = false ∧
    (scheduleRootUpdate ⟨false, false, false, false⟩ [] none 5
        CallbackArg.nullArg).events =
      [Event.evCreateUpdate 5, Event.evFlushPassiveEffects,
        Event.evEnqueueUpdate, Event.evScheduleWork 5] := by
  decide

/-- Claim C2 amended: in every run of `scheduleRootUpdate`, creating the
update record precedes the passive-effect flush, and the flush precedes
enqueueing the new update (flush-before-enqueue, not flush-before-create). -/
theorem claim_C2_flush_before_enqueue (g : DevGlobals) (queue : List Update)
    (element : Option Element) (expirationTime : Nat)
    (callback : CallbackArg) :
    precedesIn (Event.evCreateUpdate expirationTime)
        Event.evFlushPassiveEffects
        (scheduleRootUpdate g queue element expirationTime callback).events =
      true ∧
    precedesIn Event.evFlushPassiveEffects Event.evEnqueueUpdate
        (scheduleRootUpdate g queue element expirationTime callback).events =
      true := by
  rcases g with ⟨dev, ph, cf, dw⟩
  cases callback <;> cases dev <;> cases ph <;> cases cf <;> cases dw <;>
    simp [scheduleRootUpdate, precedesIn, containsEv]

/-- Claim C3 counterexample: a concrete run with a non-`null`, non-function
callback emits the development warning, but the created update record's
callback field does not stay `null`: the non-callable value is attached. -/
theorem claim_C3_counterexample :
    (scheduleRootUpdate ⟨true, false, false, false⟩ [] none 1
        (CallbackArg.nonFunc 0)).events =
      [Event.evCreateUpdate 1, Event.warnNonFunctionCallback,
        Event.evFlushPassiveEffects, Event.evEnqueueUpdate,
        Event.evScheduleWork 1] ∧
    ¬ ((scheduleRootUpdate ⟨true, false, false, false⟩ [] none 1
        (CallbackArg.nonFunc 0)).update.callback = none) ∧
    (scheduleRootUpdate ⟨true, false, false, false⟩ [] none 1
        (CallbackArg.nonFunc 0)).update.callback =
      some (CallbackVal.nonFunc 0) := by
  decide

/-- Claim C3 amended: a non-`null`, non-function callback makes the root
update path emit the development-only warning (exactly in development
builds) and proceed non-fatally — the update is still enqueued and the
expiration time returned — but the update record's callback field is set to
the provided non-callable value rather than staying `null`. -/
theorem claim_C3_nonfunction_callback (g : DevGlobals) (queue : List Update)
    (element : Option Element) (expirationTime : Nat) (n : Nat) :
    containsEv Event.warnNonFunctionCallback
        (scheduleRootUpdate g queue element expirationTime
          (CallbackArg.nonFunc n)).events = g.dev ∧
    (scheduleRootUpdate g queue element expirationTime
        (CallbackArg.nonFunc n)).update.callback =
      some (CallbackVal.nonFunc n) ∧
    (scheduleRootUpdate g queue element expirationTime
        (CallbackArg.nonFunc n)).queue =
      queue ++ [(scheduleRootUpdate g queue element expirationTime
        (CallbackArg.nonFunc n)).update] ∧
    (scheduleRootUpdate g queue element expirationTime
        (CallbackArg.nonFunc n)).returned = expirationTime := by
  rcases g with ⟨dev, ph, cf, dw⟩
  cases dev <;> cases ph <;> cases cf <;> cases dw <;>
    simp [scheduleRootUpdate, containsEv, enqueueUpdate, CallbackArg.isFunction]

theorem findHostInstanceWithWarning_fst (dev : Bool)
    (gcn : String → Option String) (warned : List String)
    (component : Handle) (methodName : String) :
    (findHostInstanceWithWarning dev gcn warned component methodName).1 =
      findHostInstance component := by
  rw [findHostInstanceWithWarning, findHostInstance]
  cases dev with
  | false => rfl
  | true =>
    rw [getInstance]
    cases hf : component.fiber with
    | none => by_cases hr : component.hasRenderFn <;> simp [hr]
    | some fiber =>
      cases h : findCurrentHostFiber fiber with
      | none => simp [h]
      | some hostFiber =>
        by_cases hs : hostFiber.mode &&& StrictMode = 0
        · simp [h, hs]
        · by_cases hm : ((gcn fiber.tyName).getD "Component") ∈ warned <;>
            simp [h, hs, hm]

theorem findHostInstanceWithWarning_state (dev : Bool)
    (gcn : String → Option String) (warned : List String)
    (component : Handle) (methodName : String) :
    ((findHostInstanceWithWarning dev gcn warned component methodName).2.2 =
        none ∧
      (findHostInstanceWithWarning dev gcn warned component methodName).2.1 =
        warned) ∨
    (∃ mn n b,
      (findHostInstanceWithWarning dev gcn warned component methodName).2.2 =
        some (mn, n, b) ∧
      (findHostInstanceWithWarning dev gcn warned component methodName).2.1 =
        n :: warned ∧
      n ∉ warned) := by
  rw [findHostInstanceWithWarning]
  cases dev with
  | false => exact Or.inl ⟨rfl, rfl⟩
  | true =>
    rw [getInstance]
    cases hf : component.fiber with
    | none =>
      refine Or.inl ?_
      by_cases hr : component.hasRenderFn <;> simp [hr]
    | some fiber =>
      cases h : findCurrentHostFiber fiber with
      | none =>
        refine Or.inl ?_
        simp [h]
      | some hostFiber =>
        by_cases hs : hostFiber.mode &&& StrictMode = 0
        · refine Or.inl ?_
          simp [h, hs]
        · by_cases hm : ((gcn fiber.tyName).getD "Component") ∈ warned
          · refine Or.inl ?_
            simp [h, hs, hm]
          · refine Or.inr ⟨methodName, (gcn fiber.tyName).getD "Component",
              fiber.mode &&& StrictMode != 0, ?_, ?_, hm⟩ <;>
              simp [h, hs, hm]

theorem runFindHostCalls_nodup (dev : Bool) (gcn : String → Option String) :
    ∀ (calls : List (Handle × String)) (warned : List String),
      ((runFindHostCalls dev gcn calls warned).1.map
        (fun w => w.2.1)).Nodup ∧
      ∀ n ∈ (runFindHostCalls dev gcn calls warned).1.map (fun w => w.2.1),
        n ∉ warned := by
  intro calls
  induction calls with
  | nil => intro warned; simp [runFindHostCalls]
  | cons c rest ih =>
    intro warned
    obtain ⟨component, methodName⟩ := c
    rw [runFindHostCalls]
    rcases findHostInstanceWithWarning_state dev gcn warned component
        methodName with ⟨hemit, hw⟩ | ⟨mn, n, b, hemit, hw, hnotin⟩
    · rw [hemit, hw]
      simpa using ih warned
    · rw [hemit, hw]
      obtain ⟨hnd, hmem⟩ := ih (n :: warned)
      refine ⟨?_, ?_⟩
      · simp only [Option.toList_some, List.map_append, List.map_cons,
          List.map_nil, List.singleton_append, List.nodup_cons]
        exact ⟨fun hin => (hmem n hin) (List.mem_cons_self n warned), hnd⟩
      · intro x hx
        simp only [Option.toList_some, List.map_append, List.map_cons,
          List.map_nil, List.singleton_append, List.mem_cons] at hx
        rcases hx with rfl | hx
        · exact hnotin
        · intro hxw
          exact (hmem x hx) (List.mem_cons_of_mem n hxw)

/-- Claim C5: on every input, `findHostInstanceWithWarning` returns exactly
the value `findHostInstance` returns (including faulting with the same
invariant violation), and across any sequence of calls starting from the
initial empty warning set, the strict-mode deprecation warning is emitted at
most once per component name. -/
theorem claim_C5_warning_variant (dev : Bool) (gcn : String → Option String)
    (warned : List String) (component : Handle) (methodName : String)
    (calls : List (Handle × String)) :
    (findHostInstanceWithWarning dev gcn warned component methodName).1 =
      findHostInstance component ∧
    ((runFindHostCalls dev gcn calls []).1.map (fun w => w.2.1)).Nodup :=
  ⟨findHostInstanceWithWarning_fst dev gcn warned component methodName,
    (runFindHostCalls_nodup dev gcn calls []).1⟩

end ReactFiberReconciler
